import Mathlib

/-!
Verification of the bounded audio frame buffer and reconnect logic of the
telegram-livestream relay (src/buffer.py, src/streaming.py), via a shallow
embedding: the Python classes become Lean structures, the methods become
pure state-transforming functions, the `asyncio.Queue` becomes a `List`,
`time.time()` values become rationals passed explicitly, and exceptions
become `Except` values.
-/

/-- One audio frame: an opaque byte sequence (src/buffer.py frames are bytes). -/
def Frame : Type := List Nat

instance : DecidableEq Frame := by unfold Frame; infer_instance

instance : Inhabited Frame := ⟨[]⟩

instance : Repr Frame := by unfold Frame; infer_instance

/-- Python exceptions that appear in the embedded code paths. -/
inductive PyErr where
  | queueFull
  | queueEmpty
  | attributeError (name : String)
deriving Repr, DecidableEq

/-- State of `AudioBuffer` (src/buffer.py lines 17-33): the queue contents,
the `stats` dict counters, the `last_activity` timestamp and the `running`
flag.  `max_size` is the `maxsize` given to `asyncio.Queue`. -/
structure BufferSt where
  max_size : Nat
  queue : List Frame
  received : Nat
  sent : Nat
  dropped : Nat
  last_activity : ℚ
  running : Bool
deriving Repr, DecidableEq

namespace AudioBuffer

/-- `AudioBuffer.__init__(max_size)` at wall-clock time `now`
(src/buffer.py lines 17-33): empty queue, zero counters,
`last_activity = time.time()`, not running. -/
def init (maxSize : Nat) (now : ℚ) : BufferSt :=
  { max_size := maxSize, queue := [], received := 0, sent := 0, dropped := 0,
    last_activity := now, running := false }

/-- `asyncio.Queue.full()`: with `maxsize <= 0` the queue is unbounded and
never full; otherwise full iff `qsize() >= maxsize`. -/
def queueFull (s : BufferSt) : Bool :=
  decide (s.max_size ≠ 0 ∧ s.max_size ≤ s.queue.length)

/-- `queue.put_nowait(frame)`: raises `QueueFull` when full, else appends. -/
def put_nowait (f : Frame) (s : BufferSt) : Except PyErr BufferSt :=
  if queueFull s then Except.error PyErr.queueFull
  else Except.ok { s with queue := s.queue ++ [f] }

/-- `queue.get_nowait()`: raises `QueueEmpty` when empty, else removes and
returns the oldest (front) element. -/
def get_nowait (s : BufferSt) : Except PyErr (Frame × BufferSt) :=
  match s.queue with
  | [] => Except.error PyErr.queueEmpty
  | f :: rest => Except.ok (f, { s with queue := rest })

/-- `AudioBuffer.put(frame)` (src/buffer.py lines 60-85) with the exception
flow explicit.  Try `put_nowait`; on success bump `received` and refresh
`last_activity`.  On `QueueFull`: drop the oldest frame via `get_nowait`
(bumping `dropped`; `QueueEmpty` is passed over), then retry `put_nowait`;
on success bump `received` (the retry path does not touch `last_activity`);
on a second `QueueFull` count the new frame as `dropped` and log a warning.
Any other exception would propagate. -/
def putE (now : ℚ) (f : Frame) (s : BufferSt) : Except PyErr BufferSt :=
  match put_nowait f s with
  | Except.ok s1 =>
      Except.ok { s1 with received := s1.received + 1, last_activity := now }
  | Except.error PyErr.queueFull =>
      let s1 := match get_nowait s with
        | Except.ok (_, s') => { s' with dropped := s'.dropped + 1 }
        | Except.error _ => s
      match put_nowait f s1 with
      | Except.ok s2 => Except.ok { s2 with received := s2.received + 1 }
      | Except.error PyErr.queueFull =>
          Except.ok { s1 with dropped := s1.dropped + 1 }
      | Except.error e => Except.error e
  | Except.error e => Except.error e

/-- The state after `AudioBuffer.put` (total: every exception is handled). -/
def put (now : ℚ) (f : Frame) (s : BufferSt) : BufferSt :=
  match putE now f s with
  | Except.ok s' => s'
  | Except.error _ => s

/-- Result of `AudioBuffer.get(timeout)`: the returned value (`none` on
timeout), the buffer state afterwards, and the time the call suspended. -/
structure GetResult where
  frame : Option Frame
  state : BufferSt
  elapsed : ℚ
deriving Repr, DecidableEq

/-- `AudioBuffer.get(timeout)` (src/buffer.py lines 87-103), with no
concurrent producer: if a frame is queued, `queue.get()` completes at once,
`sent` is bumped and `last_activity` refreshed; otherwise `asyncio.wait_for`
waits the full `timeout`, raises `TimeoutError`, and `None` is returned with
the state untouched.  The method never consults `running`. -/
def get (timeout now : ℚ) (s : BufferSt) : GetResult :=
  match s.queue with
  | [] => { frame := none, state := s, elapsed := timeout }
  | f :: rest =>
      { frame := some f,
        state := { s with queue := rest, sent := s.sent + 1, last_activity := now },
        elapsed := 0 }

/-- The drain loop of `AudioBuffer.stop` (src/buffer.py lines 52-56):
`while not queue.empty(): queue.get_nowait()` — removes every queued frame
without touching the stats counters. -/
def drainLoop : List Frame → List Frame
  | [] => []
  | _ :: rest => drainLoop rest

/-- `AudioBuffer.stop` (src/buffer.py lines 41-58): set `running = False`,
cancel the monitor task, then drain the queue.  Counters are not touched. -/
def stop (s : BufferSt) : BufferSt :=
  { s with running := false, queue := drainLoop s.queue }

/-- The snapshot returned by `AudioBuffer.get_stats` (src/buffer.py
lines 105-114). -/
structure Stats where
  size : Nat
  maxSize : Nat
  received : Nat
  sent : Nat
  dropped : Nat
  idle_time : ℚ
deriving Repr, DecidableEq

/-- `AudioBuffer.get_stats()` at wall-clock time `now`. -/
def get_stats (now : ℚ) (s : BufferSt) : Stats :=
  { size := s.queue.length, maxSize := s.max_size, received := s.received,
    sent := s.sent, dropped := s.dropped, idle_time := now - s.last_activity }

/-- `AudioBuffer.is_healthy()` (src/buffer.py lines 153-175): unhealthy when
`idle_time > 60`, or when `received > 0` and `dropped / received > 0.2`. -/
def is_healthy (now : ℚ) (s : BufferSt) : Bool :=
  let stats := get_stats now s
  if 60 < stats.idle_time then false
  else if 0 < stats.received ∧ (1 / 5 : ℚ) < (stats.dropped : ℚ) / (stats.received : ℚ)
    then false
  else true

end AudioBuffer

/-- One buffer operation of a put/get workload (no stop/drain/reset). -/
inductive BufOp where
  | put (now : ℚ) (f : Frame)
  | get (timeout now : ℚ)

/-- Applying one operation to a buffer state. -/
def applyOp (s : BufferSt) : BufOp → BufferSt
  | BufOp.put now f => AudioBuffer.put now f s
  | BufOp.get t now => (AudioBuffer.get t now s).state

/-- Running a workload from a state. -/
def runOps (s : BufferSt) (ops : List BufOp) : BufferSt :=
  ops.foldl applyOp s

/-- The stats balance: every received frame was sent, dropped, or is queued. -/
def statsInv (s : BufferSt) : Prop :=
  s.received = s.sent + s.dropped + s.queue.length

/-- Capacity bound maintained by put/get on a bounded buffer. -/
def capInv (s : BufferSt) : Prop :=
  s.max_size ≠ 0 → s.queue.length ≤ s.max_size
/-- Repeated `AudioBuffer.put` calls with no intervening consumption. -/
def runPuts (now : ℚ) (s : BufferSt) (frames : List Frame) : BufferSt :=
  frames.foldl (fun t f => AudioBuffer.put now f t) s

/-- The methods defined on `AudioBuffer` in src/buffer.py.  Notably there is
no `clear` method: attribute lookup of `clear` on an `AudioBuffer` raises
`AttributeError`. -/
def audioBufferMethods : List String :=
  ["__init__", "start", "stop", "put", "get", "get_stats", "reset_stats",
   "_monitor_health", "is_healthy"]

/-- State of `AudioStreamer` (src/streaming.py lines 43-72): the streaming
and capture flags, the per-call connection flags, and the single
`reconnect_attempts` counter shared by the source and target handlers,
bounded by `max_reconnect_attempts` (default 10). -/
structure StreamerSt where
  is_streaming : Bool
  is_capturing : Bool
  source_connected : Bool
  target_connected : Bool
  reconnect_attempts : Nat
  max_reconnect_attempts : Nat
deriving Repr, DecidableEq

/-- A streamer right after a successful `start()` (src/streaming.py
lines 74-101): streaming and capturing, both calls connected, zero
reconnect attempts, default bound 10. -/
def startedStreamer : StreamerSt :=
  { is_streaming := true, is_capturing := true, source_connected := true,
    target_connected := true, reconnect_attempts := 0,
    max_reconnect_attempts := 10 }

/-- A started streamer configured with `max_attempts = 3` as in the claim,
right after the source connection dropped. -/
def streamerMax3 : StreamerSt :=
  { is_streaming := true, is_capturing := true, source_connected := false,
    target_connected := true, reconnect_attempts := 0,
    max_reconnect_attempts := 3 }

/-- Observable timeline events of a reconnect handler: a sleep of some
seconds, a re-join attempt carrying the attempt number the code logs, and
the terminal give-up that clears `is_streaming`. -/
inductive REvent where
  | wait (secs : Nat)
  | attempt (k : Nat)
  | giveUp
deriving Repr, DecidableEq

/-- Whether an event is a re-join attempt. -/
def isAttempt : REvent → Bool
  | REvent.attempt _ => true
  | _ => false

/-- `true` iff every `attempt` event in the trace is immediately preceded
by a `wait d` event. -/
def eachAttemptAfterWait (d : Nat) : List REvent → Bool
  | [] => true
  | REvent.attempt _ :: _ => false
  | REvent.wait d' :: REvent.attempt _ :: rest =>
      d' == d && eachAttemptAfterWait d rest
  | _ :: rest => eachAttemptAfterWait d rest

/-- How far a reconnect handler gets before its first suspension point. -/
inductive EntryOutcome where
  | returned
  | gaveUp
  | sleeping
deriving Repr, DecidableEq

/-- The entry of `AudioStreamer.handle_source_reconnect` (src/streaming.py
lines 207-220) up to its first `await asyncio.sleep(5)`: return immediately
if not streaming; otherwise increment the shared `self.reconnect_attempts`;
if it now exceeds `max_reconnect_attempts`, clear `is_streaming` and give
up; otherwise proceed to the sleep (suspension point). -/
def handleSourceReconnectEntry (st : StreamerSt) : StreamerSt × EntryOutcome :=
  if st.is_streaming = false then (st, EntryOutcome.returned)
  else if st.max_reconnect_attempts < st.reconnect_attempts + 1 then
    ({ st with reconnect_attempts := st.reconnect_attempts + 1,
               is_streaming := false }, EntryOutcome.gaveUp)
  else
    ({ st with reconnect_attempts := st.reconnect_attempts + 1 },
     EntryOutcome.sleeping)

/-- The entry of `AudioStreamer.handle_target_reconnect` (src/streaming.py
lines 229-242): textually the same logic as the source handler, mutating
the same shared `self.reconnect_attempts` field. -/
def handleTargetReconnectEntry (st : StreamerSt) : StreamerSt × EntryOutcome :=
  if st.is_streaming = false then (st, EntryOutcome.returned)
  else if st.max_reconnect_attempts < st.reconnect_attempts + 1 then
    ({ st with reconnect_attempts := st.reconnect_attempts + 1,
               is_streaming := false }, EntryOutcome.gaveUp)
  else
    ({ st with reconnect_attempts := st.reconnect_attempts + 1 },
     EntryOutcome.sleeping)

/-- The successful tail of `AudioStreamer.join_source` (src/streaming.py
lines 163-164): set `source_connected` and reset the shared
`reconnect_attempts` to 0. -/
def joinSourceSuccess (st : StreamerSt) : StreamerSt :=
  { st with source_connected := true, reconnect_attempts := 0 }

/-- The successful tail of `AudioStreamer.join_target` (src/streaming.py
lines 196-197): set `target_connected` and reset the shared
`reconnect_attempts` to 0. -/
def joinTargetSuccess (st : StreamerSt) : StreamerSt :=
  { st with target_connected := true, reconnect_attempts := 0 }

/-- `AudioStreamer.handle_source_reconnect` (src/streaming.py lines
207-227) run to completion, with `joinOk k` telling whether the k-th
re-join attempt succeeds.  Mirrors the code: return if not streaming;
increment the shared counter; give up (clearing `is_streaming`) once the
counter exceeds the bound; otherwise sleep 5 s, attempt `join_source`
(on success: connected, counter reset to 0), and on failure sleep 10 s
and recurse. -/
def handleSourceReconnect (joinOk : Nat → Bool) (st : StreamerSt) :
    StreamerSt × List REvent :=
  if st.is_streaming = false then (st, [])
  else if st.max_reconnect_attempts < st.reconnect_attempts + 1 then
    ({ st with reconnect_attempts := st.reconnect_attempts + 1,
               is_streaming := false }, [REvent.giveUp])
  else if joinOk (st.reconnect_attempts + 1) then
    ({ st with reconnect_attempts := 0, source_connected := true },
     [REvent.wait 5, REvent.attempt (st.reconnect_attempts + 1)])
  else
    let r := handleSourceReconnect joinOk
      { st with reconnect_attempts := st.reconnect_attempts + 1 }
    (r.1, REvent.wait 5 :: REvent.attempt (st.reconnect_attempts + 1) ::
      REvent.wait 10 :: r.2)
termination_by st.max_reconnect_attempts + 1 - st.reconnect_attempts
decreasing_by
  simp
  omega

/-- `AudioStreamer.handle_target_reconnect` (src/streaming.py lines
229-249): same logic on the same shared counter, re-joining the target. -/
def handleTargetReconnect (joinOk : Nat → Bool) (st : StreamerSt) :
    StreamerSt × List REvent :=
  if st.is_streaming = false then (st, [])
  else if st.max_reconnect_attempts < st.reconnect_attempts + 1 then
    ({ st with reconnect_attempts := st.reconnect_attempts + 1,
               is_streaming := false }, [REvent.giveUp])
  else if joinOk (st.reconnect_attempts + 1) then
    ({ st with reconnect_attempts := 0, target_connected := true },
     [REvent.wait 5, REvent.attempt (st.reconnect_attempts + 1)])
  else
    let r := handleTargetReconnect joinOk
      { st with reconnect_attempts := st.reconnect_attempts + 1 }
    (r.1, REvent.wait 5 :: REvent.attempt (st.reconnect_attempts + 1) ::
      REvent.wait 10 :: r.2)
termination_by st.max_reconnect_attempts + 1 - st.reconnect_attempts
decreasing_by
  simp
  omega

/-- `AudioStreamer.stop` (src/streaming.py lines 428-452): clear
`is_streaming` and `is_capturing`; the two `leave_group_call` calls sit in
`try/except` blocks that swallow any failure and assign nothing; then
`self.buffer.clear()` is called — `AudioBuffer` has no `clear` method, so
this raises `AttributeError` (the flags already cleared, the buffer left
untouched). -/
def streamerStop (st : StreamerSt) (b : BufferSt) :
    StreamerSt × BufferSt × Option PyErr :=
  let st1 := { st with is_streaming := false, is_capturing := false }
  if "clear" ∈ audioBufferMethods then (st1, { b with queue := [] }, none)
  else (st1, b, some (PyErr.attributeError "clear"))

/-- A buffer that has been stopped: `AudioBuffer.stop` on a fresh buffer of
capacity 5. -/
def stoppedBuf : BufferSt := AudioBuffer.stop (AudioBuffer.init 5 0)

/-- A concrete full buffer: capacity 2 holding two frames. -/
def fullBuf : BufferSt :=
  { max_size := 2, queue := [[5], [6]], received := 2, sent := 0,
    dropped := 0, last_activity := 0, running := true }

theorem put_eq_of_not_full (now : ℚ) (f : Frame) (s : BufferSt)
    (h : AudioBuffer.queueFull s = false) :
    AudioBuffer.put now f s =
      { s with queue := s.queue ++ [f], received := s.received + 1,
               last_activity := now } := by
  simp [AudioBuffer.put, AudioBuffer.putE, AudioBuffer.put_nowait, h]

theorem put_eq_of_full (now : ℚ) (f : Frame) (s : BufferSt)
    (h : AudioBuffer.queueFull s = true) (hcap : s.queue.length ≤ s.max_size) :
    AudioBuffer.put now f s =
      { s with queue := s.queue.tail ++ [f], received := s.received + 1,
               dropped := s.dropped + 1 } := by
  have hmax : s.max_size ≠ 0 ∧ s.max_size ≤ s.queue.length := by
    simpa [AudioBuffer.queueFull] using h
  have hne : s.queue ≠ [] := by
    intro hnil
    rw [hnil] at hmax
    simp only [List.length_nil] at hmax
    omega
  obtain ⟨q0, rest, hq⟩ := List.exists_cons_of_ne_nil hne
  have h1 : s.max_size ≠ 0 ∧ s.max_size ≤ rest.length + 1 := by
    rw [hq] at hmax
    simpa using hmax
  have h2 : ¬ s.max_size ≤ rest.length := by
    rw [hq] at hcap
    simp only [List.length_cons] at hcap
    omega
  simp [AudioBuffer.put, AudioBuffer.putE, AudioBuffer.put_nowait,
        AudioBuffer.get_nowait, AudioBuffer.queueFull, hq, h1.1, h1.2, h2]

theorem get_eq_of_empty (timeout now : ℚ) (s : BufferSt) (h : s.queue = []) :
    AudioBuffer.get timeout now s =
      { frame := none, state := s, elapsed := timeout } := by
  simp [AudioBuffer.get, h]

theorem get_eq_of_cons (timeout now : ℚ) (s : BufferSt) (f : Frame)
    (rest : List Frame) (h : s.queue = f :: rest) :
    AudioBuffer.get timeout now s =
      { frame := some f,
        state := { s with queue := rest, sent := s.sent + 1, last_activity := now },
        elapsed := 0 } := by
  simp [AudioBuffer.get, h]

theorem applyOp_inv (s : BufferSt) (op : BufOp)
    (h1 : statsInv s) (h2 : capInv s) :
    statsInv (applyOp s op) ∧ capInv (applyOp s op) := by
  unfold statsInv at h1
  unfold capInv at h2
  unfold statsInv capInv
  cases op with
  | put now f =>
      show _ ∧ _
      by_cases hf : AudioBuffer.queueFull s = true
      · have hmax : s.max_size ≠ 0 ∧ s.max_size ≤ s.queue.length := by
          simpa [AudioBuffer.queueFull] using hf
        have hlen : 1 ≤ s.queue.length := by
          have := hmax.2
          omega
        rw [show applyOp s (BufOp.put now f) = AudioBuffer.put now f s from rfl,
            put_eq_of_full now f s hf (h2 hmax.1)]
        refine ⟨?_, fun _ => ?_⟩
        · simp only [List.length_append, List.length_tail, List.length_cons,
                     List.length_nil]
          omega
        · simp only [List.length_append, List.length_tail, List.length_cons,
                     List.length_nil]
          have := h2 hmax.1
          omega
      · have hnf : ¬ (s.max_size ≠ 0 ∧ s.max_size ≤ s.queue.length) := by
          simpa [AudioBuffer.queueFull] using hf
        rw [show applyOp s (BufOp.put now f) = AudioBuffer.put now f s from rfl,
            put_eq_of_not_full now f s (by simpa using hf)]
        refine ⟨?_, fun hm => ?_⟩
        · simp only [List.length_append, List.length_cons, List.length_nil]
          omega
        · simp only [List.length_append, List.length_cons, List.length_nil]
          have hm' : s.max_size ≠ 0 := hm
          have hlt : s.queue.length < s.max_size := by
            rcases Nat.lt_or_ge s.queue.length s.max_size with hl | hg
            · exact hl
            · exact absurd ⟨hm', hg⟩ hnf
          omega
  | get t now =>
      cases hq : s.queue with
      | nil =>
          rw [show applyOp s (BufOp.get t now) = (AudioBuffer.get t now s).state
                from rfl,
              get_eq_of_empty t now s hq]
          exact ⟨h1, h2⟩
      | cons f rest =>
          rw [show applyOp s (BufOp.get t now) = (AudioBuffer.get t now s).state
                from rfl,
              get_eq_of_cons t now s f rest hq]
          rw [hq] at h1
          simp only [List.length_cons] at h1
          refine ⟨?_, fun hm => ?_⟩
          · simp only
            omega
          · simp only
            have hm' : s.max_size ≠ 0 := hm
            have := h2 hm'
            rw [hq] at this
            simp only [List.length_cons] at this
            omega

theorem runOps_inv (ops : List BufOp) (s : BufferSt)
    (h1 : statsInv s) (h2 : capInv s) :
    statsInv (runOps s ops) ∧ capInv (runOps s ops) := by
  induction ops generalizing s with
  | nil => exact ⟨h1, h2⟩
  | cons op rest ih =>
      have hstep := applyOp_inv s op h1 h2
      simpa [runOps, List.foldl_cons] using ih (applyOp s op) hstep.1 hstep.2

/-- C1: starting from a freshly constructed buffer, after any sequence of
put and get operations (no stop/drain/reset in between) the counters satisfy
`received = sent + dropped + current_size`, where `current_size` is the
number of queued frames. -/
theorem c1_stats_balance (maxSize : Nat) (now : ℚ) (ops : List BufOp) :
    (runOps (AudioBuffer.init maxSize now) ops).received =
      (runOps (AudioBuffer.init maxSize now) ops).sent +
        (runOps (AudioBuffer.init maxSize now) ops).dropped +
        (runOps (AudioBuffer.init maxSize now) ops).queue.length := by
  have h := runOps_inv ops (AudioBuffer.init maxSize now)
    (by unfold statsInv AudioBuffer.init; simp)
    (by unfold capInv AudioBuffer.init; simp)
  exact h.1

theorem drainLoop_eq_nil (l : List Frame) : AudioBuffer.drainLoop l = [] := by
  induction l with
  | nil => rfl
  | cons f rest ih => simpa [AudioBuffer.drainLoop] using ih

/-- C9: `AudioBuffer.stop` drains every queued frame (the queue becomes
empty) while leaving the `received`, `sent` and `dropped` counters
unchanged — the drained frames are not counted as drops. -/
theorem c9_stop_drains_without_drops (s : BufferSt) :
    (AudioBuffer.stop s).queue = [] ∧
    (AudioBuffer.stop s).received = s.received ∧
    (AudioBuffer.stop s).sent = s.sent ∧
    (AudioBuffer.stop s).dropped = s.dropped := by
  refine ⟨?_, rfl, rfl, rfl⟩
  show AudioBuffer.drainLoop s.queue = []
  exact drainLoop_eq_nil s.queue

theorem runPuts_fill (now : ℚ) (frames : List Frame) (s : BufferSt)
    (h : s.max_size = 0 ∨ s.queue.length + frames.length ≤ s.max_size) :
    (runPuts now s frames).queue = s.queue ++ frames ∧
    (runPuts now s frames).received = s.received + frames.length ∧
    (runPuts now s frames).sent = s.sent ∧
    (runPuts now s frames).dropped = s.dropped ∧
    (runPuts now s frames).max_size = s.max_size := by
  induction frames generalizing s with
  | nil => simp [runPuts]
  | cons f rest ih =>
      have hnf : AudioBuffer.queueFull s = false := by
        unfold AudioBuffer.queueFull
        simp only [List.length_cons, decide_eq_false_iff_not, not_and] at h ⊢
        intro hne
        rcases h with h | h
        · exact absurd h hne
        · omega
      have hrec := ih { s with queue := s.queue ++ [f], received := s.received + 1, last_activity := now } (by
        simp only [List.length_append, List.length_cons, List.length_nil]
        rcases h with h | h
        · exact Or.inl h
        · right
          simp only [List.length_cons] at h
          omega)
      unfold runPuts at hrec ⊢
      simp only [List.foldl_cons]
      rw [put_eq_of_not_full now f s hnf]
      refine ⟨?_, ?_, ?_, ?_, ?_⟩
      · rw [hrec.1]
        simp
      · rw [hrec.2.1]
        simp only [List.length_cons]
        omega
      · exact hrec.2.2.1
      · exact hrec.2.2.2.1
      · exact hrec.2.2.2.2

/-- C10: constructing the buffer with `max_size = 0` yields an unbounded
queue (`asyncio.Queue(maxsize=0)` is never full): any sequence of puts with
no consumption evicts nothing, `dropped` stays 0, the queue holds exactly
the frames put in order, and `current_size` equals the number of puts. -/
theorem c10_zero_capacity_unbounded (now : ℚ) (frames : List Frame) :
    (runPuts now (AudioBuffer.init 0 now) frames).dropped = 0 ∧
    (runPuts now (AudioBuffer.init 0 now) frames).queue = frames ∧
    (runPuts now (AudioBuffer.init 0 now) frames).received = frames.length ∧
    (runPuts now (AudioBuffer.init 0 now) frames).queue.length = frames.length := by
  have h := runPuts_fill now frames (AudioBuffer.init 0 now) (Or.inl rfl)
  refine ⟨?_, ?_, ?_, ?_⟩
  · rw [h.2.2.2.1]
    simp [AudioBuffer.init]
  · rw [h.1]
    simp [AudioBuffer.init]
  · rw [h.2.1]
    simp [AudioBuffer.init]
  · rw [h.1]
    simp [AudioBuffer.init]

/-- C2: for capacity `n >= 1` and `n + 1` puts with no get, exactly one
frame is dropped, `current_size = n`, `received = n + 1`, and the queue
holds the `n` most recent frames in insertion order (`frames.drop 1`);
moreover `get` returns the oldest queued frame (FIFO) and overflow eviction
removes exactly the oldest still-queued frame, appending the new one. -/
theorem c2_overflow_fifo :
    (∀ (n : Nat) (now : ℚ) (frames : List Frame), 1 ≤ n →
      frames.length = n + 1 →
      (runPuts now (AudioBuffer.init n now) frames).dropped = 1 ∧
      (runPuts now (AudioBuffer.init n now) frames).received = n + 1 ∧
      (runPuts now (AudioBuffer.init n now) frames).queue = frames.drop 1 ∧
      (runPuts now (AudioBuffer.init n now) frames).queue.length = n) ∧
    (∀ (t now : ℚ) (s : BufferSt) (f : Frame) (rest : List Frame),
      s.queue = f :: rest →
      (AudioBuffer.get t now s).frame = some f ∧
      (AudioBuffer.get t now s).state.queue = rest) ∧
    (∀ (now : ℚ) (f : Frame) (s : BufferSt),
      AudioBuffer.queueFull s = true → s.queue.length ≤ s.max_size →
      (AudioBuffer.put now f s).queue = s.queue.tail ++ [f] ∧
      (AudioBuffer.put now f s).dropped = s.dropped + 1) := by
  refine ⟨?_, ?_, ?_⟩
  · intro n now frames hn hlen
    have hne : frames ≠ [] := by
      intro h
      rw [h] at hlen
      simp at hlen
    obtain ⟨front, b, hsplit⟩ : ∃ front b, frames = front ++ [b] := by
      rcases List.eq_nil_or_concat frames with h | ⟨front, b, h⟩
      · exact absurd h hne
      · exact ⟨front, b, by simpa [List.concat_eq_append] using h⟩
    have hfl : front.length = n := by
      rw [hsplit] at hlen
      simp at hlen
      omega
    have hfill := runPuts_fill now front (AudioBuffer.init n now) (Or.inr (by
      simp [AudioBuffer.init, hfl]))
    obtain ⟨hq1, hr1, hsent1, hd1, hm1⟩ := hfill
    have hq1' : (runPuts now (AudioBuffer.init n now) front).queue = front := by
      rw [hq1]
      simp [AudioBuffer.init]
    have hr1' : (runPuts now (AudioBuffer.init n now) front).received = n := by
      rw [hr1]
      simp [AudioBuffer.init, hfl]
    have hd1' : (runPuts now (AudioBuffer.init n now) front).dropped = 0 := by
      rw [hd1]
      rfl
    have hm1' : (runPuts now (AudioBuffer.init n now) front).max_size = n := by
      rw [hm1]
      rfl
    have hfull : AudioBuffer.queueFull (runPuts now (AudioBuffer.init n now) front) = true := by
      simp [AudioBuffer.queueFull, hq1', hm1', hfl]
      omega
    have hcap : (runPuts now (AudioBuffer.init n now) front).queue.length ≤
        (runPuts now (AudioBuffer.init n now) front).max_size := by
      rw [hq1', hm1']
      exact hfl.le
    have hstep := put_eq_of_full now b (runPuts now (AudioBuffer.init n now) front) hfull hcap
    have hrun : runPuts now (AudioBuffer.init n now) frames =
        AudioBuffer.put now b (runPuts now (AudioBuffer.init n now) front) := by
      rw [hsplit]
      unfold runPuts
      rw [List.foldl_append]
      simp
    rw [hrun, hstep]
    have hfne : 1 ≤ front.length := by omega
    refine ⟨?_, ?_, ?_, ?_⟩
    · simp [hd1']
    · simp [hr1']
    · simp only [hq1', hsplit]
      rw [List.drop_append_of_le_length hfne, List.drop_one]
    · simp only [List.length_append, List.length_cons, List.length_nil, hq1',
                 List.length_tail]
      omega
  · intro t now s f rest hq
    rw [get_eq_of_cons t now s f rest hq]
    exact ⟨rfl, rfl⟩
  · intro now f s hfull hcap
    rw [put_eq_of_full now f s hfull hcap]
    exact ⟨rfl, rfl⟩

theorem c2_overflow_fifo_witness :
    (runPuts 0 (AudioBuffer.init 2 0) [[0], [1], [2]]).dropped = 1 ∧
    (runPuts 0 (AudioBuffer.init 2 0) [[0], [1], [2]]).received = 2 + 1 ∧
    (runPuts 0 (AudioBuffer.init 2 0) [[0], [1], [2]]).queue = [[1], [2]] ∧
    (AudioBuffer.get 1 0 fullBuf).frame = some [5] ∧
    (AudioBuffer.put 0 [7] fullBuf).queue = [[6], [7]] := by
  have hA := c2_overflow_fifo.1 2 0 [[0], [1], [2]] (by decide) (by decide)
  have hB := c2_overflow_fifo.2.1 1 0 fullBuf [5] [[6]] (by decide)
  have hC := c2_overflow_fifo.2.2 0 [7] fullBuf (by decide) (by decide)
  refine ⟨hA.1, hA.2.1, ?_, hB.1, ?_⟩
  · simpa using hA.2.2.1
  · simpa [fullBuf] using hC.1

/-- C3: `is_healthy` returns `false` exactly when the idle time
`now - last_activity` exceeds 60 seconds or `received > 0` and the drop
rate `dropped / received` exceeds 0.2 (exact rational arithmetic stands in
for Python floats); and a freshly constructed buffer within those bounds is
healthy.  In the embedding `is_healthy` is a pure function of the state, so
the query cannot modify the buffer. -/
theorem c3_is_healthy_iff :
    (∀ (s : BufferSt) (now : ℚ),
      AudioBuffer.is_healthy now s = false ↔
        (60 < now - s.last_activity ∨
          (0 < s.received ∧
            (1 / 5 : ℚ) < (s.dropped : ℚ) / (s.received : ℚ)))) ∧
    (∀ (maxSize : Nat) (created now : ℚ), now - created ≤ 60 →
      AudioBuffer.is_healthy now (AudioBuffer.init maxSize created) = true) := by
  constructor
  · intro s now
    unfold AudioBuffer.is_healthy AudioBuffer.get_stats
    dsimp only
    split_ifs with h1 h2
    · exact iff_of_true rfl (Or.inl h1)
    · exact iff_of_true rfl (Or.inr h2)
    · exact iff_of_false (by simp) (fun hc => hc.elim h1 h2)
  · intro maxSize created now h
    unfold AudioBuffer.is_healthy AudioBuffer.get_stats AudioBuffer.init
    dsimp only
    simp [not_lt.mpr h]

theorem c3_is_healthy_witness :
    ((0 : ℚ) - 0 ≤ 60 ∧
      AudioBuffer.is_healthy 0 (AudioBuffer.init 50 0) = true) ∧
    (AudioBuffer.is_healthy 0 fullBuf = false ↔
      (60 < (0 : ℚ) - fullBuf.last_activity ∨
        (0 < fullBuf.received ∧
          (1 / 5 : ℚ) < (fullBuf.dropped : ℚ) / (fullBuf.received : ℚ)))) :=
  ⟨⟨by norm_num, c3_is_healthy_iff.2 50 0 0 (by norm_num)⟩,
   c3_is_healthy_iff.1 fullBuf 0⟩

/-- C4: with `max_reconnect_attempts = 3` and every re-join failing, the
source reconnect handler makes exactly 3 re-join attempts (numbered 1-3, so
no 4th attempt ever happens), each immediately preceded by the fixed 5 s
delay, and ends in the terminal give-up that clears `is_streaming`, which
stops the whole relay (the capture, broadcast and monitor loops all run
`while self.is_streaming`). -/
theorem c4_reconnect_bound (st : StreamerSt)
    (hs : st.is_streaming = true) (ha : st.reconnect_attempts = 0)
    (hm : st.max_reconnect_attempts = 3) :
    (handleSourceReconnect (fun _ => false) st).2 =
      [REvent.wait 5, REvent.attempt 1, REvent.wait 10,
       REvent.wait 5, REvent.attempt 2, REvent.wait 10,
       REvent.wait 5, REvent.attempt 3, REvent.wait 10, REvent.giveUp] ∧
    ((handleSourceReconnect (fun _ => false) st).2.filter isAttempt).length = 3 ∧
    (∀ k, REvent.attempt k ∈ (handleSourceReconnect (fun _ => false) st).2 →
      1 ≤ k ∧ k ≤ 3) ∧
    eachAttemptAfterWait 5 (handleSourceReconnect (fun _ => false) st).2 = true ∧
    (handleSourceReconnect (fun _ => false) st).1.is_streaming = false := by
  have htr : handleSourceReconnect (fun _ => false) st =
      ({ st with reconnect_attempts := 4, is_streaming := false },
       [REvent.wait 5, REvent.attempt 1, REvent.wait 10,
        REvent.wait 5, REvent.attempt 2, REvent.wait 10,
        REvent.wait 5, REvent.attempt 3, REvent.wait 10, REvent.giveUp]) := by
    simp [handleSourceReconnect, hs, ha, hm]
  rw [htr]
  refine ⟨rfl, rfl, ?_, rfl, rfl⟩
  intro k hk
  simp only [List.mem_cons, List.not_mem_nil, or_false] at hk
  rcases hk with h | h | h | h | h | h | h | h | h | h <;> simp at h <;> omega

theorem c4_reconnect_bound_witness :
    streamerMax3.is_streaming = true ∧
    streamerMax3.reconnect_attempts = 0 ∧
    streamerMax3.max_reconnect_attempts = 3 ∧
    ((handleSourceReconnect (fun _ => false) streamerMax3).2.filter
      isAttempt).length = 3 ∧
    (handleSourceReconnect (fun _ => false) streamerMax3).1.is_streaming =
      false :=
  ⟨rfl, rfl, rfl, (c4_reconnect_bound streamerMax3 rfl rfl rfl).2.1,
   (c4_reconnect_bound streamerMax3 rfl rfl rfl).2.2.2.2⟩

/-- C5 (code bug): `AudioStreamer.stop` always raises `AttributeError`,
already on its first call, because it invokes `self.buffer.clear()` and
`AudioBuffer` defines no `clear` method.  The flags are cleared before the
failing call and the buffer is left untouched, and the claim's "neither the
first nor the second call raises an error" fails. -/
theorem c5_stop_raises_attribute_error (st : StreamerSt) (b : BufferSt) :
    (streamerStop st b).2.2 = some (PyErr.attributeError "clear") ∧
    (streamerStop st b).1.is_streaming = false ∧
    (streamerStop st b).1.is_capturing = false ∧
    (streamerStop st b).2.1 = b := by
  unfold streamerStop
  rw [if_neg (by decide)]
  exact ⟨rfl, rfl, rfl, rfl⟩

/-- C6 counterexample: the code keeps one `reconnect_attempts` field shared
by both endpoints.  From a fresh started streamer, a source disruption runs
the source handler entry (reaching its 5 s sleep with the counter at 1);
a target disruption arriving during that sleep runs the target handler
entry on the same state, which reads and stores 2 as the target's attempt
number — though it is the target's first disruption.  Under per-endpoint
counters it would be 1, so a source disruption does advance the count
governing the target. -/
theorem c6_per_endpoint_counterexample :
    (handleSourceReconnectEntry startedStreamer).2 = EntryOutcome.sleeping ∧
    (handleSourceReconnectEntry startedStreamer).1.reconnect_attempts = 1 ∧
    (handleTargetReconnectEntry
      (handleSourceReconnectEntry startedStreamer).1).1.reconnect_attempts =
      2 := by
  decide

/-- C6 amended: reconnect attempts are counted in a single shared counter:
while streaming, a disruption on either endpoint advances the same
`reconnect_attempts` field (and hence the count the other endpoint's
handler observes), and a successful re-join of either endpoint resets that
shared counter to 0 for both endpoints. -/
theorem c6_shared_counter (st : StreamerSt) (hs : st.is_streaming = true) :
    (handleSourceReconnectEntry st).1.reconnect_attempts =
      st.reconnect_attempts + 1 ∧
    (handleTargetReconnectEntry st).1.reconnect_attempts =
      st.reconnect_attempts + 1 ∧
    (joinSourceSuccess st).reconnect_attempts = 0 ∧
    (joinTargetSuccess st).reconnect_attempts = 0 := by
  refine ⟨?_, ?_, rfl, rfl⟩
  · unfold handleSourceReconnectEntry
    rw [if_neg (by simp [hs])]
    split_ifs <;> rfl
  · unfold handleTargetReconnectEntry
    rw [if_neg (by simp [hs])]
    split_ifs <;> rfl

theorem c6_shared_counter_witness :
    startedStreamer.is_streaming = true ∧
    (handleSourceReconnectEntry startedStreamer).1.reconnect_attempts =
      startedStreamer.reconnect_attempts + 1 ∧
    (handleTargetReconnectEntry startedStreamer).1.reconnect_attempts =
      startedStreamer.reconnect_attempts + 1 :=
  ⟨rfl, (c6_shared_counter startedStreamer rfl).1,
   (c6_shared_counter startedStreamer rfl).2.1⟩

theorem put_eq_of_overfull (now : ℚ) (f : Frame) (s : BufferSt)
    (h : AudioBuffer.queueFull s = true) (hover : s.max_size < s.queue.length) :
    AudioBuffer.put now f s =
      { s with queue := s.queue.tail, dropped := s.dropped + 1 + 1 } := by
  have hmax : s.max_size ≠ 0 ∧ s.max_size ≤ s.queue.length := by
    simpa [AudioBuffer.queueFull] using h
  have hne : s.queue ≠ [] := by
    intro hnil
    rw [hnil] at hover
    exact absurd hover (by simp)
  obtain ⟨q0, rest, hq⟩ := List.exists_cons_of_ne_nil hne
  have h1 : s.max_size ≠ 0 ∧ s.max_size ≤ rest.length + 1 := by
    rw [hq] at hmax
    simpa using hmax
  have h2 : s.max_size ≤ rest.length := by
    rw [hq] at hover
    simp at hover
    omega
  simp [AudioBuffer.put, AudioBuffer.putE, AudioBuffer.put_nowait,
        AudioBuffer.get_nowait, AudioBuffer.queueFull, hq, h1.1, h1.2, h2]

theorem putE_isOk (now : ℚ) (f : Frame) (s : BufferSt) :
    (AudioBuffer.putE now f s).isOk = true := by
  unfold AudioBuffer.putE AudioBuffer.put_nowait AudioBuffer.get_nowait
  by_cases h1 : AudioBuffer.queueFull s = true
  · simp only [h1, if_true]
    cases hq : s.queue with
    | nil =>
        simp [h1, Except.isOk, Except.toBool]
    | cons q0 rest =>
        by_cases h2 : AudioBuffer.queueFull
            ({ s with queue := rest, dropped := s.dropped + 1 } : BufferSt) = true
        · simp [h1, h2, Except.isOk, Except.toBool]
        · simp [h1, h2, Except.isOk, Except.toBool]
  · simp [h1, Except.isOk, Except.toBool]

theorem putE_eq_ok (now : ℚ) (f : Frame) (s : BufferSt) :
    AudioBuffer.putE now f s = Except.ok (AudioBuffer.put now f s) := by
  have h := putE_isOk now f s
  unfold AudioBuffer.put
  cases he : AudioBuffer.putE now f s with
  | ok s' => rfl
  | error e =>
      rw [he] at h
      simp [Except.isOk, Except.toBool] at h

theorem put_ignores_running (now : ℚ) (f : Frame) (s : BufferSt) (b : Bool) :
    AudioBuffer.put now f { s with running := b } =
      { AudioBuffer.put now f s with running := b } := by
  by_cases h1 : AudioBuffer.queueFull s = true
  · rcases le_or_lt s.queue.length s.max_size with hle | hgt
    · rw [put_eq_of_full now f { s with running := b } h1 hle,
          put_eq_of_full now f s h1 hle]
    · rw [put_eq_of_overfull now f { s with running := b } h1 hgt,
          put_eq_of_overfull now f s h1 hgt]
  · have h1' : AudioBuffer.queueFull s = false := by simpa using h1
    rw [put_eq_of_not_full now f { s with running := b } h1',
        put_eq_of_not_full now f s h1']

/-- C7 counterexample: on a stopped buffer (here `AudioBuffer.stop` of a
fresh capacity-5 buffer), `put` is not a no-op — it inserts the frame and
increments `received` — and `get(timeout=1)` on the empty stopped buffer
waits the full 1 s timeout instead of returning the no-data result
immediately: neither method ever consults `running`. -/
theorem c7_stopped_counterexample :
    stoppedBuf.running = false ∧
    AudioBuffer.put 0 [9] stoppedBuf ≠ stoppedBuf ∧
    (AudioBuffer.put 0 [9] stoppedBuf).received = 1 ∧
    (AudioBuffer.put 0 [9] stoppedBuf).queue = [[9]] ∧
    (AudioBuffer.get 1 0 stoppedBuf).frame = none ∧
    (AudioBuffer.get 1 0 stoppedBuf).elapsed = 1 := by
  decide

/-- C7 amended: the stopped flag is never consulted by `put` or `get`:
`put` on a stopped buffer behaves exactly as on a running one (frame
inserted or dropped and counted identically), and `get` on an empty buffer
— stopped or not — waits the full timeout and only then returns the
no-data result. -/
theorem c7_stop_not_consulted :
    (∀ (now : ℚ) (f : Frame) (s : BufferSt) (b : Bool),
      AudioBuffer.put now f { s with running := b } =
        { AudioBuffer.put now f s with running := b }) ∧
    (∀ (t now : ℚ) (s : BufferSt) (b : Bool),
      (AudioBuffer.get t now { s with running := b }).frame =
        (AudioBuffer.get t now s).frame ∧
      (AudioBuffer.get t now { s with running := b }).elapsed =
        (AudioBuffer.get t now s).elapsed) ∧
    (∀ (t now : ℚ) (s : BufferSt), s.queue = [] →
      AudioBuffer.get t now s = { frame := none, state := s, elapsed := t }) := by
  refine ⟨put_ignores_running, ?_, get_eq_of_empty⟩
  intro t now s b
  cases hq : s.queue with
  | nil =>
      rw [get_eq_of_empty t now s hq]
      simp [AudioBuffer.get]
  | cons f0 rest =>
      rw [get_eq_of_cons t now s f0 rest hq]
      simp [AudioBuffer.get]

theorem c7_stop_not_consulted_witness :
    stoppedBuf.queue = [] ∧
    AudioBuffer.get 1 0 stoppedBuf =
      { frame := none, state := stoppedBuf, elapsed := 1 } :=
  ⟨by decide, c7_stop_not_consulted.2.2 1 0 stoppedBuf (by decide)⟩

/-- C8: `put` never lets an exception escape to the caller: the embedded
exception-level `putE` always returns `Except.ok` (both `QueueFull` raises
and the `QueueEmpty` raise are caught inside `put`), and whenever the
buffer is full the overflow is converted into a counted drop — `dropped`
strictly increases, with a warning rather than an error even in the branch
where the retried insertion fails again. -/
theorem c8_put_never_raises :
    (∀ (now : ℚ) (f : Frame) (s : BufferSt),
      AudioBuffer.putE now f s = Except.ok (AudioBuffer.put now f s)) ∧
    (∀ (now : ℚ) (f : Frame) (s : BufferSt),
      AudioBuffer.queueFull s = true →
      s.dropped < (AudioBuffer.put now f s).dropped) := by
  refine ⟨putE_eq_ok, ?_⟩
  intro now f s hfull
  rcases le_or_lt s.queue.length s.max_size with hle | hgt
  · rw [put_eq_of_full now f s hfull hle]
    show s.dropped < s.dropped + 1
    omega
  · rw [put_eq_of_overfull now f s hfull hgt]
    show s.dropped < s.dropped + 1 + 1
    omega

theorem c8_put_never_raises_witness :
    AudioBuffer.queueFull fullBuf = true ∧
    fullBuf.dropped < (AudioBuffer.put 0 [7] fullBuf).dropped :=
  ⟨by decide, c8_put_never_raises.2 0 [7] fullBuf (by decide)⟩
